import Mathlib

/-!
Shallow embedding of the OVR blockchain core (ledger/state engine) and proofs
about its documented behaviour.

The embedding translates the Rust sources under `src/`:
`common/mod.rs`, `ledger/mod.rs`, `ethvm/mod.rs`, `ethvm/tx/mod.rs`,
`rpc/eth.rs`.  External crates consumed by the core (the vsdb versioned
store, the evm interpreter, secp256k1 recovery, sha3, serialization) are
modelled from the contracts stated in the specification; every such
definition carries a comment saying so.  Machine integers (U256, u64) are
modelled as `Nat` with explicit bounds where the source uses checked or
saturating arithmetic.  Rust panics are modelled as `Option.none`; Rust
`Result` is modelled as `Except`.
-/

set_option autoImplicit false
set_option linter.unusedVariables false

namespace OVR

/-- 2 ^ 256, the bound of the 256-bit unsigned arithmetic of the source. -/
def U256LIMIT : Nat := 2 ^ 256

/-- u64::MAX. -/
def U64MAX : Nat := 2 ^ 64 - 1

/-- U256::checked_mul. -/
def checkedMul (a b : Nat) : Option Nat :=
  if a * b < U256LIMIT then some (a * b) else none

/-- U256::checked_add. -/
def checkedAdd (a b : Nat) : Option Nat :=
  if a + b < U256LIMIT then some (a + b) else none

/-- U256::saturating_sub; `Nat` subtraction already saturates at zero. -/
def satSub (a b : Nat) : Nat := a - b

/-- Lookup in an association list, first match wins. -/
def assocGet {α β : Type} [BEq α] (l : List (α × β)) (k : α) : Option β :=
  (l.find? (fun p => p.1 == k)).map (fun p => p.2)

/-- Insertion into an ordered map kept as an association list ascending by key
    (the MapxOrd collections of the source). -/
def mapInsert {β : Type} : List (Nat × β) → Nat → β → List (Nat × β)
  | [], k, v => [(k, v)]
  | (k0, v0) :: rest, k, v =>
    if k < k0 then (k, v) :: (k0, v0) :: rest
    else if k = k0 then (k, v) :: rest
    else (k0, v0) :: mapInsert rest k v

/-- Lookup in an ordered map. -/
def mapGet {β : Type} (m : List (Nat × β)) (k : Nat) : Option β := assocGet m k

/-- Last entry of an ordered map (the greatest key for ascending maps). -/
def mapLast {β : Type} (m : List (Nat × β)) : Option (Nat × β) := m.getLast?

def exceptIsOk {ε α : Type} : Except ε α → Bool
  | .ok _ => true
  | .error _ => false

def exceptIsError {ε α : Type} (e : Except ε α) : Bool := !(exceptIsOk e)

/-- Modelled from the spec: SHA3-256 is an external primitive consumed by the
    core; it is abstracted as a fixed executable digest with a 32-byte output.
    The source's `hash_sha3_256` feeds each slice of its argument into one
    hasher, which equals hashing the concatenation; the model therefore takes
    the concatenated byte list. -/
def hashSha3 (input : List Nat) : List Nat :=
  (List.range 32).map
    (fun i => (input.foldl (fun acc x => (acc * 131 + x + 1) % 4294967291) (i + 7)) % 256)

/-- H160::len_bytes(). -/
def H160LEN : Nat := 20

/-- H256::len_bytes(). -/
def H256LEN : Nat := 32

/-- common/mod.rs `tm_proposer_to_evm_format`: copies `addr[..min(20, len)]`
    into a 20-byte buffer with `copy_from_slice`, which panics (modelled as
    `none`) unless the source slice is exactly 20 bytes long, i.e. unless
    `addr` has at least 20 bytes. -/
def tm_proposer_to_evm_format (addr : List Nat) : Option (List Nat) :=
  if min H160LEN addr.length = H160LEN then some (addr.take H160LEN) else none

/-- common/mod.rs `block_hash_to_evm_format`: the same `copy_from_slice`
    pattern with a 32-byte buffer. -/
def block_hash_to_evm_format (hash : List Nat) : Option (List Nat) :=
  if min H256LEN hash.length = H256LEN then some (hash.take H256LEN) else none

/-! ## The versioned store

Modelled from the spec (section 4.1 and the design notes): the external vsdb
crate keeps, per branch, an ordered log of version markers, each carrying the
key/value writes tagged with it; reads are an overlay walk from the newest
version down; a branch forked from a parent sees the parent's state as of the
fork point and nothing later. -/

/-- OvrAccount (ethvm/mod.rs). -/
structure OvrAccount where
  nonce : Nat
  balance : Nat
  code : List Nat
deriving DecidableEq

/-- OvrAccount::default(). -/
def OvrAccount.zeroed : OvrAccount := ⟨0, 0, []⟩

/-- VsVersion (ledger/mod.rs). -/
structure VsVersion where
  blockHeight : Nat
  txPosition : Nat
deriving DecidableEq

/-- VsVersion::default() = VsVersion::new(0, 0). -/
def VsVersion.zeroed : VsVersion := ⟨0, 0⟩

/-- Version order: (block_height, tx_position) lexicographic (spec section 3). -/
def VsVersion.le (a b : VsVersion) : Bool :=
  Nat.blt a.blockHeight b.blockHeight ||
    (a.blockHeight == b.blockHeight && Nat.ble a.txPosition b.txPosition)

/-- The writes tagged with one version of one branch. -/
structure Layer where
  accounts : List (Nat × OvrAccount)
  storages : List ((Nat × Nat) × Nat)
deriving DecidableEq

def Layer.empty : Layer := ⟨[], []⟩

/-- A named branch: `own` versions (newest first) over a frozen `base`
    snapshot of the parent's layers taken at fork time (newest first). -/
structure Branch where
  name : String
  own : List (VsVersion × Layer)
  base : List (VsVersion × Layer)
deriving DecidableEq

def Branch.layers (br : Branch) : List (VsVersion × Layer) := br.own ++ br.base

/-- OvrVicinity (ethvm/mod.rs). -/
structure OvrVicinity where
  gasPrice : Nat
  origin : List Nat
  chainId : Nat
  blockNumber : Nat
  blockCoinbase : List Nat
  blockTimestamp : Nat
  blockDifficulty : Nat
  blockGasLimit : Nat
  blockBaseFeePerGas : Nat
deriving DecidableEq

def OvrVicinity.zeroed : OvrVicinity :=
  ⟨0, List.replicate 20 0, 0, 0, List.replicate 20 0, 0, 0, 0, 0⟩

/-- ethvm::State: the EVM-side world state.  The OrphanVs scalars
    (gas_price, block_gas_limit, block_base_fee_per_gas) are written only at
    initialization, so they are modelled as plain per-state values read
    identically on every branch. -/
structure EvmState where
  branches : List Branch
  defaultBranch : String
  gasPrice : Nat
  blockGasLimit : Nat
  blockBaseFeePerGas : Nat
  blockHashes : List (Nat × List Nat)
  vicinity : OvrVicinity
deriving DecidableEq

def EvmState.getBranch (st : EvmState) (b : String) : Option Branch :=
  st.branches.find? (fun br => br.name == b)

def EvmState.branchExists (st : EvmState) (b : String) : Bool :=
  (st.getBranch b).isSome

/-- Replace the first branch carrying the given branch's name. -/
def replaceBranch : List Branch → Branch → List Branch
  | [], _ => []
  | br0 :: rest, br =>
    if br0.name == br.name then br :: rest else br0 :: replaceBranch rest br

def EvmState.setBranch (st : EvmState) (br : Branch) : EvmState :=
  { st with branches := replaceBranch st.branches br }

/-- vsdb branch_create_by_base_branch: fork at the parent's tip. -/
def EvmState.branchCreateByBase (st : EvmState) (child par : String) :
    Except String EvmState :=
  if st.branchExists child then .error "branch already exists"
  else match st.getBranch par with
    | none => .error "parent branch not found"
    | some p => .ok { st with branches := st.branches ++ [⟨child, [], p.layers⟩] }

/-- vsdb branch_create_by_base_branch_version: fork seeing the parent's state
    as of version `v` and nothing later (spec section 4.1). -/
def EvmState.branchCreateByBaseVersion (st : EvmState) (child par : String)
    (v : VsVersion) : Except String EvmState :=
  if st.branchExists child then .error "branch already exists"
  else match st.getBranch par with
    | none => .error "parent branch not found"
    | some p =>
      .ok { st with
        branches := st.branches ++ [⟨child, [], p.layers.filter (fun pr => pr.1.le v)⟩] }

/-- vsdb version_create_by_branch: append a new version marker on the branch. -/
def EvmState.versionCreateByBranch (st : EvmState) (v : VsVersion) (b : String) :
    Except String EvmState :=
  match st.getBranch b with
  | none => .error "branch not found"
  | some br => .ok (st.setBranch { br with own := (v, Layer.empty) :: br.own })

/-- vsdb version_pop_by_branch: discard exactly the writes of the branch's
    latest own version. -/
def EvmState.versionPopByBranch (st : EvmState) (b : String) :
    Except String EvmState :=
  match st.getBranch b with
  | none => .error "branch not found"
  | some br =>
    match br.own with
    | [] => .error "no version on branch"
    | _ :: rest => .ok (st.setBranch { br with own := rest })

/-- vsdb branch_has_versions: whether the branch carries a version of its own
    (a write target). -/
def EvmState.branchHasVersions (st : EvmState) (b : String) : Bool :=
  match st.getBranch b with
  | none => false
  | some br => !br.own.isEmpty

/-- vsdb branch_remove. -/
def EvmState.branchRemove (st : EvmState) (b : String) : Except String EvmState :=
  if st.branchExists b then
    .ok { st with branches := st.branches.filter (fun br => br.name != b) }
  else .error "branch not found"

/-- Overlay read of an account through a stack of layers, newest first. -/
def lookupAccount : List (VsVersion × Layer) → Nat → Option OvrAccount
  | [], _ => none
  | (_, ly) :: rest, a =>
    match assocGet ly.accounts a with
    | some acct => some acct
    | none => lookupAccount rest a

/-- Overlay read of a storage cell through a stack of layers, newest first. -/
def lookupStorage : List (VsVersion × Layer) → (Nat × Nat) → Option Nat
  | [], _ => none
  | (_, ly) :: rest, k =>
    match assocGet ly.storages k with
    | some v => some v
    | none => lookupStorage rest k

/-- OFUEL.accounts.get_by_branch. -/
def EvmState.getAccountByBranch (st : EvmState) (b : String) (a : Nat) :
    Option OvrAccount :=
  (st.getBranch b).bind (fun br => lookupAccount br.layers a)

/-- OFUEL.accounts.get: a read on the instance's default branch. -/
def EvmState.getAccount (st : EvmState) (a : Nat) : Option OvrAccount :=
  st.getAccountByBranch st.defaultBranch a

/-- OFUEL.storages.get_by_branch. -/
def EvmState.getStorageByBranch (st : EvmState) (b : String) (k : Nat × Nat) :
    Option Nat :=
  (st.getBranch b).bind (fun br => lookupStorage br.layers k)

/-- OFUEL.storages.get: a read on the instance's default branch. -/
def EvmState.getStorage (st : EvmState) (k : Nat × Nat) : Option Nat :=
  st.getStorageByBranch st.defaultBranch k

/-- OFUEL.accounts.insert_by_branch: a write tagged with the branch's latest
    own version; `none` models the panic/failure when the branch is absent or
    carries no own version to write into. -/
def EvmState.insertAccountByBranch (st : EvmState) (a : Nat) (acct : OvrAccount)
    (b : String) : Option EvmState :=
  match st.getBranch b with
  | none => none
  | some br =>
    match br.own with
    | [] => none
    | (v, ly) :: rest =>
      some (st.setBranch
        { br with own := (v, { ly with accounts := (a, acct) :: ly.accounts }) :: rest })

/-- OFUEL.storages.insert_by_branch. -/
def EvmState.insertStorageByBranch (st : EvmState) (k : Nat × Nat) (val : Nat)
    (b : String) : Option EvmState :=
  match st.getBranch b with
  | none => none
  | some br =>
    match br.own with
    | [] => none
    | (v, ly) :: rest =>
      some (st.setBranch
        { br with own := (v, { ly with storages := (k, val) :: ly.storages }) :: rest })

/-! ## Transactions (ethvm/tx/mod.rs) -/

/-- GAS_PRICE_MIN. -/
def GAS_PRICE_MIN : Nat := 10

inductive TransactionAction
  | Call (addr : Nat)
  | Create
deriving DecidableEq

/-- The fields of an ethereum::LegacyTransaction used by the core. -/
structure LegacyTx where
  nonce : Nat
  gasPrice : Nat
  gasLimit : Nat
  action : TransactionAction
  value : Nat
  input : List Nat
deriving DecidableEq

/-- The fields of an ethereum::EIP2930Transaction used by the core. -/
structure EIP2930Tx where
  nonce : Nat
  gasPrice : Nat
  gasLimit : Nat
  action : TransactionAction
  value : Nat
  input : List Nat
deriving DecidableEq

/-- The fields of an ethereum::EIP1559Transaction used by the core. -/
structure EIP1559Tx where
  nonce : Nat
  maxPriorityFeePerGas : Nat
  maxFeePerGas : Nat
  gasLimit : Nat
  action : TransactionAction
  value : Nat
  input : List Nat
deriving DecidableEq

inductive TransactionAny
  | Legacy (tx : LegacyTx)
  | EIP2930 (tx : EIP2930Tx)
  | EIP1559 (tx : EIP1559Tx)
deriving DecidableEq

/-- ethvm::tx::Tx, the Evm arm of the transaction envelope.  Signature bytes
    and secp256k1 recovery are external primitives (spec section 1); the model
    carries the recovery outcome directly: `recoveredSigner = none` models a
    transaction whose signature fails to recover. -/
structure EvmTx where
  tx : TransactionAny
  recoveredSigner : Option Nat
deriving DecidableEq

/-- The nonce field, per variant. -/
def txNonce (t : EvmTx) : Nat :=
  match t.tx with
  | .Legacy tx => tx.nonce
  | .EIP2930 tx => tx.nonce
  | .EIP1559 tx => tx.nonce

/-- The gas_limit field, per variant. -/
def txGasLimit (t : EvmTx) : Nat :=
  match t.tx with
  | .Legacy tx => tx.gasLimit
  | .EIP2930 tx => tx.gasLimit
  | .EIP1559 tx => tx.gasLimit

/-- The value field, per variant. -/
def txValue (t : EvmTx) : Nat :=
  match t.tx with
  | .Legacy tx => tx.value
  | .EIP2930 tx => tx.value
  | .EIP1559 tx => tx.value

/-- The action field, per variant. -/
def txAction (t : EvmTx) : TransactionAction :=
  match t.tx with
  | .Legacy tx => tx.action
  | .EIP2930 tx => tx.action
  | .EIP1559 tx => tx.action

/-- The gas price used by check_gas_price (and then by the whole pipeline):
    gas_price for Legacy/EIP2930, max_fee_per_gas for EIP1559. -/
def txEffectiveGasPrice (t : EvmTx) : Nat :=
  match t.tx with
  | .Legacy tx => tx.gasPrice
  | .EIP2930 tx => tx.gasPrice
  | .EIP1559 tx => tx.maxFeePerGas

/-- Tx::recover_signer. -/
def EvmTx.recover_signer (t : EvmTx) : Option Nat := t.recoveredSigner

/-- Tx::get_from_to. -/
def EvmTx.get_from_to (t : EvmTx) : Option Nat × Option Nat :=
  (t.recover_signer,
   match txAction t with
   | .Call addr => some addr
   | .Create => none)

/-- Modelled from the spec: serialization of a transaction (external); any
    injective-enough flattening works for the hash input. -/
def encodeTx (t : EvmTx) : List Nat :=
  let body :=
    match t.tx with
    | .Legacy tx =>
      [0, tx.nonce, tx.gasPrice, tx.gasLimit, tx.value] ++ tx.input
    | .EIP2930 tx =>
      [1, tx.nonce, tx.gasPrice, tx.gasLimit, tx.value] ++ tx.input
    | .EIP1559 tx =>
      [2, tx.nonce, tx.maxPriorityFeePerGas, tx.maxFeePerGas, tx.gasLimit, tx.value]
        ++ tx.input
  let act :=
    match txAction t with
    | .Call addr => [1, addr]
    | .Create => [0, 0]
  body ++ act

/-- Tx::hash (sha3 of the serialized envelope). -/
def EvmTx.hash (t : EvmTx) : List Nat := hashSha3 (encodeTx t)

/-- Modelled from the spec: CreateScheme::Legacy derives the new contract
    address from the caller via external keccak/rlp primitives. -/
def createAddressLegacy (caller : Nat) : Nat := caller * 2 + 1

/-- The contract address recorded by Tx::exec before execution: the call
    target for calls, the predetermined legacy create address otherwise. -/
def txContractAddr (t : EvmTx) (addr : Nat) : Nat :=
  match txAction t with
  | .Call target => target
  | .Create => createAddressLegacy addr

/-! ## Ledger data model (ledger/mod.rs) -/

/-- MAIN_BRANCH_NAME. -/
def MAIN_BRANCH_NAME : String := "Main"

/-- An evm::backend::Log as produced by the interpreter. -/
structure EthLog where
  address : Nat
  topics : List Nat
  data : List Nat
deriving DecidableEq

/-- ledger::Log. -/
structure LedgerLog where
  address : Nat
  topics : List Nat
  data : List Nat
  txHash : List Nat
  txIndex : Nat
  logIndexInBlock : Nat
  logIndexInTx : Nat
  removed : Bool
deriving DecidableEq

/-- Log::new_from_eth_log_and_tx_hash. -/
def LedgerLog.ofEthLog (l : EthLog) (txHash : List Nat) : LedgerLog :=
  { address := l.address, topics := l.topics, data := l.data, txHash := txHash,
    txIndex := 0, logIndexInBlock := 0, logIndexInTx := 0, removed := false }

/-- ledger::Receipt. -/
structure Receipt where
  txHash : List Nat
  txIndex : Nat
  fromAddr : Option Nat
  toAddr : Option Nat
  blockGasUsed : Nat
  txGasUsed : Nat
  contractAddr : Option Nat
  stateRoot : Option (List Nat)
  statusCode : Bool
  logs : List LedgerLog
deriving DecidableEq

/-- Receipt::add_logs: stamps tx_index and log_index_in_tx onto the logs and
    stores them on the receipt. -/
def Receipt.add_logs (r : Receipt) (logs : List LedgerLog) : Receipt :=
  { r with
    logs := logs.enum.map
      (fun pr => { pr.2 with txIndex := r.txIndex, logIndexInTx := pr.1 }) }

/-- ledger::TxMerkle; the tree is kept as its levels. -/
structure TxMerkle where
  rootHash : List Nat
  tree : List (List (List Nat))
deriving DecidableEq

def TxMerkle.emptyTree : TxMerkle := ⟨[], []⟩

/-- ledger::BlockHeader; the receipts BTreeMap is an association list. -/
structure BlockHeader where
  height : Nat
  proposer : List Nat
  timestamp : Nat
  txMerkle : TxMerkle
  prevHash : List Nat
  receipts : List (List Nat × Receipt)
deriving DecidableEq

/-- ledger::Block. -/
structure Block where
  header : BlockHeader
  headerHash : List Nat
  txs : List EvmTx
  bloom : List Nat
deriving DecidableEq

/-- Block::default() (mem::take's replacement at commit). -/
def Block.zeroed : Block :=
  { header := { height := 0, proposer := [], timestamp := 0,
                txMerkle := TxMerkle.emptyTree, prevHash := [], receipts := [] },
    headerHash := [], txs := [], bloom := [] }

/-- Insert into the receipts map, replacing an existing entry for the key. -/
def receiptsInsert : List (List Nat × Receipt) → List Nat → Receipt →
    List (List Nat × Receipt)
  | [], k, v => [(k, v)]
  | (k0, v0) :: rest, k, v =>
    if k0 == k then (k, v) :: rest else (k0, v0) :: receiptsInsert rest k v

/-- Modelled from the spec: the Ethereum bloom filter lives in the external
    ethereum_types crate; `accrue` is abstracted as an executable update of a
    byte list. -/
def bloomAccrue (b : List Nat) (raw : List Nat) : List Nat :=
  b.set ((raw.foldl (fun acc x => acc * 31 + x + 1) 0) % 256) 1

/-- common/mod.rs handle_bloom: one accrual per log address and per topic. -/
def handle_bloom (b : List Nat) (logs : List LedgerLog) : List Nat :=
  logs.foldl
    (fun acc l => l.topics.foldl (fun a t => bloomAccrue a [t]) (bloomAccrue acc [l.address]))
    b

/-- Modelled from the spec: deterministic canonical serialization of a
    receipt (external serde encoding). -/
def Receipt.encode (r : Receipt) : List Nat :=
  [r.txIndex, r.blockGasUsed, r.txGasUsed, if r.statusCode then 1 else 0,
   r.fromAddr.getD 0, r.toAddr.getD 0, r.contractAddr.getD 0, r.logs.length]
    ++ r.txHash

/-- The canonical encoding hashed by BlockHeader::hash: the tuple
    (height, proposer, timestamp, merkle_root, prev_hash, receipts). -/
def BlockHeader.encodeContents (h : BlockHeader) : List Nat :=
  [h.height, h.timestamp]
    ++ (h.proposer.length :: h.proposer)
    ++ (h.txMerkle.rootHash.length :: h.txMerkle.rootHash)
    ++ (h.prevHash.length :: h.prevHash)
    ++ h.receipts.foldl (fun acc pr => acc ++ (pr.1.length :: pr.1) ++ pr.2.encode) []

/-- BlockHeader::hash. -/
def BlockHeader.hashOf (h : BlockHeader) : List Nat := hashSha3 h.encodeContents

/-- ledger::State: chain-level scalars (OrphanVs, written at initialization
    only), the branch registry of the ledger-level versioned collections, the
    nested EVM state, and the Main-owned blocks map (MapxOrd, unversioned).
    A branch operation on this state recurses into every versioned field,
    in particular into `evm` (the vsdb Vs derive). -/
structure LedgerState where
  chainId : Nat
  chainName : String
  chainVersion : String
  ledgerBranches : List String
  evm : EvmState
  blocks : List (Nat × Block)
deriving DecidableEq

/-- branch_create_by_base_branch on the ledger State: creates the branch on
    the ledger-level collections and on the nested EVM state. -/
def LedgerState.branchCreateByBase (st : LedgerState) (child par : String) :
    Except String LedgerState :=
  if st.ledgerBranches.contains child then .error "branch already exists"
  else match st.evm.branchCreateByBase child par with
    | .error e => .error e
    | .ok evm1 =>
      .ok { st with ledgerBranches := st.ledgerBranches ++ [child], evm := evm1 }

/-- version_create_by_branch on the ledger State (recurses into `evm`; the
    ledger-level scalars carry no per-version content that the claims read). -/
def LedgerState.versionCreateByBranch (st : LedgerState) (v : VsVersion)
    (b : String) : Except String LedgerState :=
  match st.evm.versionCreateByBranch v b with
  | .error e => .error e
  | .ok evm1 => .ok { st with evm := evm1 }

/-- version_pop_by_branch on the ledger State. -/
def LedgerState.versionPopByBranch (st : LedgerState) (b : String) :
    Except String LedgerState :=
  match st.evm.versionPopByBranch b with
  | .error e => .error e
  | .ok evm1 => .ok { st with evm := evm1 }

/-- branch_has_versions on the ledger State. -/
def LedgerState.branchHasVersions (st : LedgerState) (b : String) : Bool :=
  st.evm.branchHasVersions b

/-- branch_remove on the ledger State: removes the branch from the
    ledger-level collections and from the nested EVM state. -/
def LedgerState.branchRemove (st : LedgerState) (b : String) :
    Except String LedgerState :=
  match st.evm.branchRemove b with
  | .error e => .error e
  | .ok evm1 =>
    .ok { st with
          ledgerBranches := st.ledgerBranches.filter (fun n => n != b),
          evm := evm1 }

/-- ledger::StateBranch. -/
structure StateBranch where
  state : LedgerState
  branch : String
  txHashesInProcess : List (List Nat)
  blockInProcess : Block
deriving DecidableEq

/-! ## The EVM transaction pipeline (ethvm/tx/mod.rs) -/

/-- Tx::check_gas_price: reject when the effective gas price is below the
    configured minimum.  The gas_price scalar is written only at
    initialization, so its per-branch read equals the state value. -/
def EvmTx.check_gas_price (t : EvmTx) (sb : StateBranch) (b : String) :
    Except String Nat :=
  let gasPriceMin := sb.state.evm.gasPrice
  let gasPrice := txEffectiveGasPrice t
  if gasPriceMin ≤ gasPrice then .ok gasPrice else .error "Gas price is too low"

/-- Tx::check_nonce: strict equality with the account nonce on the branch, an
    absent account reading as nonce zero; the error carries the pair
    (tx_nonce, system_nonce). -/
def EvmTx.check_nonce (t : EvmTx) (addr : Nat) (sb : StateBranch) (b : String) :
    Except (Nat × Nat) Unit :=
  let systemNonce :=
    ((sb.state.evm.getAccountByBranch b addr).map (fun a => a.nonce)).getD 0
  if txNonce t = systemNonce then .ok () else .error (txNonce t, systemNonce)

/-- Tx::check_balance: needed = value + gas_price * gas_limit with checked
    multiply and checked add; reject on gas_limit == 0, on overflow, or when
    needed exceeds the balance (an absent account reading as zero). -/
def EvmTx.check_balance (t : EvmTx) (addr : Nat) (gasPrice : Nat)
    (sb : StateBranch) (b : String) :
    Except (Option (OvrAccount × Nat)) (OvrAccount × Nat) :=
  let transferValue := txValue t
  let gasLimit := txGasLimit t
  if gasLimit = 0 then .error none
  else
    match checkedMul gasPrice gasLimit with
    | none => .error none
    | some feeLimit =>
      match checkedAdd transferValue feeLimit with
      | none => .error none
      | some neededAmount =>
        let account := (sb.state.evm.getAccountByBranch b addr).getD OvrAccount.zeroed
        if neededAmount ≤ account.balance then .ok (account, neededAmount)
        else .error (some (account, neededAmount))

/-- Tx::pre_exec: the four preflight steps in order — minimum gas price,
    signature recovery, nonce, balance. -/
def EvmTx.pre_exec (t : EvmTx) (sb : StateBranch) (b : String) :
    Except String (Nat × OvrAccount × Nat) :=
  match t.check_gas_price sb b with
  | .error e => .error e
  | .ok gasPrice =>
    match t.recover_signer with
    | none => .error "signature recovery failed"
    | some addr =>
      match t.check_nonce addr sb b with
      | .error pr =>
        .error ("Invalid nonce: " ++ toString pr.1 ++ ", should be: " ++ toString pr.2)
      | .ok _ =>
        match t.check_balance addr gasPrice sb b with
        | .ok (account, _) => .ok (addr, account, gasPrice)
        | .error (some pr) =>
          .error ("Insufficient balance, needed: " ++ toString pr.2 ++ ", total: "
            ++ toString pr.1.balance)
        | .error none => .error ""

/-- The outcome the external EVM interpreter reports for one execution. -/
structure ExecOutcome where
  exitSucceed : Bool
  gasUsed : Nat
  extraData : List Nat
  changes : List (Nat × OvrAccount)
  storageChanges : List ((Nat × Nat) × Nat)
  logs : List EthLog

/-- The account view a backend over a branch presents to the interpreter. -/
abbrev AccountView := Nat → OvrAccount

/-- The external EVM interpreter (the evm crate is out of scope, spec
    section 1), supplied as a parameter: it sees the transaction, the caller,
    the clamped gas limit and the backend's account view. -/
abbrev TxExecOracle := EvmTx → Nat → Nat → AccountView → ExecOutcome

/-- ethvm::tx::ExecRet. -/
structure ExecRet where
  success : Bool
  gasUsed : Nat
  feeUsed : Nat
  extraData : List Nat
  caller : Nat
  contractAddr : Nat
  logs : List EthLog

/-- Modelled from the spec: Display for ExecRet is the external serde_json
    serialization; abstracted as an executable rendering. -/
def ExecRet.display (r : ExecRet) : String :=
  "ExecRet gas_used: " ++ toString r.gasUsed ++ ", fee_used: " ++ toString r.feeUsed

/-- ExecRet::gen_receipt. -/
def ExecRet.gen_receipt (r : ExecRet) (fromA toA : Option Nat) : Receipt :=
  { txHash := [], txIndex := 0, fromAddr := fromA, toAddr := toA,
    blockGasUsed := 0, txGasUsed := r.gasUsed,
    contractAddr := if toA.isNone then some r.contractAddr else none,
    stateRoot := none, statusCode := r.success, logs := [] }

/-- ExecRet::gen_logs. -/
def ExecRet.gen_logs (r : ExecRet) (txHash : List Nat) : List LedgerLog :=
  r.logs.map (fun l => LedgerLog.ofEthLog l txHash)

/-- OvrBackend::apply (spec section 4.2): writes the account and storage
    diffs onto the chosen branch; logs are not written to state.  `none`
    models the store failure when the branch has no version to write into. -/
def backendApply (st : EvmState) (b : String) (changes : List (Nat × OvrAccount))
    (storageChanges : List ((Nat × Nat) × Nat)) : Option EvmState := do
  let st1 ← changes.foldlM (fun s (p : Nat × OvrAccount) =>
    s.insertAccountByBranch p.1 p.2 b) st
  storageChanges.foldlM (fun s (p : (Nat × Nat) × Nat) =>
    s.insertStorageByBranch p.1 p.2 b) st1

/-- Tx::exec: clamp the gas limit to u64, record the contract address, run
    the interpreter over the backend of branch `b`, apply the state diffs on
    success and nothing (bar logs, which the backend drops) on failure, and
    report an ExecRet with fee_used = gas_used * gas_price. -/
def EvmTx.exec (oracle : TxExecOracle) (t : EvmTx) (addr : Nat)
    (sb : StateBranch) (b : String) (gasPrice : Nat) (estimate : Bool) :
    Option (StateBranch × ExecRet) :=
  let gasLimit := min (txGasLimit t) U64MAX
  let contractAddr := txContractAddr t addr
  let view : AccountView :=
    fun a => (sb.state.evm.getAccountByBranch b a).getD OvrAccount.zeroed
  let out := oracle t addr gasLimit view
  let success := out.exitSucceed
  (backendApply sb.state.evm b (if success then out.changes else [])
      (if success then out.storageChanges else [])).map
    (fun evm1 =>
      ({ sb with state := { sb.state with evm := evm1 } },
       { success := success, gasUsed := out.gasUsed,
         feeUsed := out.gasUsed * gasPrice, extraData := out.extraData,
         caller := addr, contractAddr := contractAddr, logs := out.logs }))

/-- Tx::apply: preflight then execute; an execution whose exit reason is not
    Succeed yields the error carrying the partial ExecRet; a preflight
    failure yields the error carrying nothing.  The pair carries the
    (possibly mutated) state branch, as the Rust method mutates `sb` in
    place; `none` models a panic. -/
def EvmTx.apply (oracle : TxExecOracle) (t : EvmTx) (sb : StateBranch)
    (b : String) (estimate : Bool) :
    Option (StateBranch × Except (Option ExecRet) (ExecRet × Receipt)) :=
  match t.pre_exec sb b with
  | .ok (addr, _account, gasPrice) =>
    (t.exec oracle addr sb b gasPrice estimate).map
      (fun pr =>
        let (fromA, toA) := t.get_from_to
        let r := pr.2.gen_receipt fromA toA
        if pr.2.success then (pr.1, .ok (pr.2, r)) else (pr.1, .error (some pr.2)))
  | .error _ => some (sb, .error none)

/-- StateBranch::charge_fee: saturating debit of the fee from the caller's
    balance on branch `b`; a zero amount is skipped; `none` models the pnk!
    panic when the caller's account is absent or the write fails. -/
def StateBranch.charge_fee (sb : StateBranch) (caller amount : Nat) (b : String) :
    Option StateBranch :=
  if amount = 0 then some sb
  else
    match sb.state.evm.getAccountByBranch b caller with
    | none => none
    | some account =>
      (sb.state.evm.insertAccountByBranch caller
          { account with balance := satSub account.balance amount } b).map
        (fun evm1 => { sb with state := { sb.state with evm := evm1 } })

/-- StateBranch::apply_tx (the Evm arm of the envelope; the Native arm is
    defined outside src/ and no claim concerns it): pre-bump the version to
    (height, 1 + number of txs so far); on success charge the fee, append the
    hash and the transaction, and insert the filled receipt; on failure pop
    the just-created version, and when a partial ExecRet exists recreate a
    default version if the branch is left without one and still charge the
    fee.  The result carries the final branch state plus ok/error; `none`
    models a panic. -/
def StateBranch.apply_tx (oracle : TxExecOracle) (sb : StateBranch)
    (tx : EvmTx) : Option (StateBranch × Except String Unit) :=
  let b := sb.branch
  let ver := VsVersion.mk sb.blockInProcess.header.height
      (1 + sb.txHashesInProcess.length)
  match sb.state.versionCreateByBranch ver b with
  | .error e => some (sb, .error e)
  | .ok st1 =>
    let sb1 : StateBranch := { sb with state := st1 }
    let txHash := tx.hash
    match tx.apply oracle sb1 b false with
    | none => none
    | some (sb2, .ok (ret, receipt0)) =>
      match sb2.charge_fee ret.caller ret.feeUsed b with
      | none => none
      | some sb3 =>
        let sb4 : StateBranch :=
          { sb3 with
            txHashesInProcess := sb3.txHashesInProcess ++ [txHash],
            blockInProcess :=
              { sb3.blockInProcess with txs := sb3.blockInProcess.txs ++ [tx] } }
        let logs := ret.gen_logs txHash
        let receipt1 := receipt0.add_logs logs
        let receipt2 :=
          { receipt1 with
            txHash := txHash, txIndex := sb4.txHashesInProcess.length - 1 }
        some
          ({ sb4 with
             blockInProcess :=
               { sb4.blockInProcess with
                 header :=
                   { sb4.blockInProcess.header with
                     receipts := receiptsInsert sb4.blockInProcess.header.receipts
                       txHash receipt2 } } },
           .ok ())
    | some (sb2, .error eOpt) =>
      match sb2.state.versionPopByBranch b with
      | .error _ => none
      | .ok stP =>
        let sbP : StateBranch := { sb2 with state := stP }
        match eOpt with
        | some ret =>
          if sbP.state.branchHasVersions b then
            match sbP.charge_fee ret.caller ret.feeUsed b with
            | none => none
            | some sbQ => some (sbQ, .error ret.display)
          else
            match sbP.state.versionCreateByBranch VsVersion.zeroed b with
            | .error e => some (sbP, .error e)
            | .ok stQ =>
              match StateBranch.charge_fee { sbP with state := stQ } ret.caller
                  ret.feeUsed b with
              | none => none
              | some sbR => some (sbR, .error ret.display)
        | none => some (sbP, .error "")

/-! ## Block commit (ledger/mod.rs) and the Merkle layer -/

/-- One pairing level of the SHA3-256 binary Merkle tree (spec section 4.6;
    the tree implementation lives in the external vsdb crate). -/
def merkleLevel : List (List Nat) → List (List Nat)
  | a :: b :: rest => hashSha3 (a ++ b) :: merkleLevel rest
  | l => l

/-- Fuel-driven reduction to the root; the fuel `l.length` always suffices. -/
def merkleRootAux : Nat → List (List Nat) → Option (List Nat)
  | _, [] => none
  | _, [h] => some h
  | 0, _ :: _ :: _ => none
  | fuel + 1, a :: b :: rest => merkleRootAux fuel (merkleLevel (a :: b :: rest))

/-- MerkleTree::get_root. -/
def merkleRoot (l : List (List Nat)) : Option (List Nat) :=
  merkleRootAux l.length l

/-- All levels of the tree, stored on the header. -/
def merkleLevelsAux : Nat → List (List Nat) → List (List (List Nat))
  | _, [] => []
  | _, [h] => [[h]]
  | 0, l => [l]
  | fuel + 1, a :: b :: rest =>
    (a :: b :: rest) :: merkleLevelsAux fuel (merkleLevel (a :: b :: rest))

def merkleLevels (l : List (List Nat)) : List (List (List Nat)) :=
  merkleLevelsAux l.length l

/-- StateBranch::commit (Main only): push the sentinel SHA3_256(empty) onto
    tx_hashes_in_process, build the Merkle tree and store root and tree on
    the header, sum tx_gas_used into every found receipt's block_gas_used,
    accrue bloom over the found receipts' logs, compute the header hash,
    index the block hash and the block at the height, and reset the
    in-process block.  `none` models the unwrap/store panics. -/
def StateBranch.commit (sb : StateBranch) : Option StateBranch :=
  let hashes := sb.txHashesInProcess ++ [hashSha3 []]
  match merkleRoot hashes with
  | none => none
  | some root =>
    let header1 :=
      { sb.blockInProcess.header with
        txMerkle := { rootHash := root, tree := merkleLevels hashes } }
    let blockGasUsed :=
      (header1.receipts.map (fun pr => pr.2.txGasUsed)).foldl (fun a x => a + x) 0
    let step := fun (acc : List (List Nat × Receipt) × List Nat) (h : List Nat) =>
      match assocGet acc.1 h with
      | some r =>
        (receiptsInsert acc.1 h { r with blockGasUsed := blockGasUsed },
         handle_bloom acc.2 r.logs)
      | none => acc
    let folded := hashes.foldl step (header1.receipts, sb.blockInProcess.bloom)
    let header2 := { header1 with receipts := folded.1 }
    let headerHash := header2.hashOf
    let block : Block :=
      { header := header2, headerHash := headerHash,
        txs := sb.blockInProcess.txs, bloom := folded.2 }
    match block_hash_to_evm_format headerHash with
    | none => none
    | some bh =>
      some
        { sb with
          state :=
            { sb.state with
              evm :=
                { sb.state.evm with
                  blockHashes :=
                    mapInsert sb.state.evm.blockHashes block.header.height bh },
              blocks := mapInsert sb.state.blocks block.header.height block },
          blockInProcess := Block.zeroed,
          txHashesInProcess := hashes }

/-- StateBranch::update_evm_aux: refresh the vicinity from chain id, the
    proposer mapped through tm_proposer_to_evm_format, and the timestamp;
    `none` models the mapping's panic on a short proposer. -/
def StateBranch.update_evm_aux (sb : StateBranch) : Option StateBranch :=
  (tm_proposer_to_evm_format sb.blockInProcess.header.proposer).map
    (fun coinbase =>
      { sb with
        state :=
          { sb.state with
            evm :=
              { sb.state.evm with
                vicinity :=
                  { gasPrice := sb.state.evm.gasPrice
                    origin := List.replicate 20 0
                    chainId := sb.state.chainId
                    blockNumber := ((mapLast sb.state.evm.blockHashes).map
                      (fun pr => pr.1)).getD 0
                    blockCoinbase := coinbase
                    blockTimestamp := sb.blockInProcess.header.timestamp
                    blockDifficulty := 0
                    blockGasLimit := sb.state.evm.blockGasLimit
                    blockBaseFeePerGas := sb.state.evm.blockBaseFeePerGas } } } })

/-! ## Historical rewind (common/mod.rs, ethvm/mod.rs)

The Rust `rollback_to_height` and `block_number_to_height` receive an
optional ledger state and an optional EVM state and operate on whichever is
provided (the EVM one taking precedence); every call site passes exactly one,
so the model splits each function into its two modes. -/

/-- web3 BlockNumber. -/
inductive BlockNumber
  | Hash (hash : List Nat) (requireCanonical : Bool)
  | Num (n : Nat)
  | Latest
  | Earliest
  | Pending
deriving DecidableEq

/-- common/mod.rs rollback_to_height, EVM-state mode: create the ephemeral
    branch "{pfx}_{height+1}" as a child of Main and create version
    (height+1, 0) on it; fail when height is zero. -/
def rollback_to_height_evm (height : Nat) (st : EvmState) (pfx : String) :
    Except String (String × EvmState) :=
  if height > 0 then
    let ver := VsVersion.mk (height + 1) 0
    let name := pfx ++ "_" ++ toString (height + 1)
    match st.branchCreateByBase name MAIN_BRANCH_NAME with
    | .error e => .error e
    | .ok st1 =>
      match st1.versionCreateByBranch ver name with
      | .error e => .error e
      | .ok st2 => .ok (name, st2)
  else .error "block height cannot be 0"

/-- common/mod.rs rollback_to_height, ledger-state mode. -/
def rollback_to_height_ledger (height : Nat) (st : LedgerState) (pfx : String) :
    Except String (String × LedgerState) :=
  if height > 0 then
    let ver := VsVersion.mk (height + 1) 0
    let name := pfx ++ "_" ++ toString (height + 1)
    match st.branchCreateByBase name MAIN_BRANCH_NAME with
    | .error e => .error e
    | .ok st1 =>
      match st1.versionCreateByBranch ver name with
      | .error e => .error e
      | .ok st2 => .ok (name, st2)
  else .error "block height cannot be 0"

/-- common/mod.rs block_number_to_height, EVM-state mode (resolves Latest and
    Hash through evm.block_hashes). -/
def block_number_to_height_evm (bn : Option BlockNumber) (st : EvmState) : Nat :=
  match bn.getD BlockNumber.Latest with
  | .Hash h _ =>
    (((st.blockHashes.find? (fun pr => pr.2 == h)).map (fun pr => pr.1)).getD 0)
  | .Num n => n
  | .Latest => (((mapLast st.blockHashes).map (fun pr => pr.1)).getD 0)
  | .Earliest => 1
  | .Pending => 0

/-- common/mod.rs block_number_to_height, ledger-state mode (resolves Latest
    and Hash through ledger.blocks). -/
def block_number_to_height_ledger (bn : Option BlockNumber) (st : LedgerState) :
    Nat :=
  match bn.getD BlockNumber.Latest with
  | .Hash h _ =>
    (((st.blocks.find? (fun pr => pr.2.headerHash == h)).map (fun pr => pr.1)).getD 0)
  | .Num n => n
  | .Latest => (((mapLast st.blocks).map (fun pr => pr.1)).getD 0)
  | .Earliest => 1
  | .Pending => 0

/-- ethvm/mod.rs snapshot_at_height: fork Main at version (height, u64::MAX)
    — the state after all txs of block `height` (spec section 4.7) — under a
    per-call unique branch name; fail when height is zero.  The process-wide
    TMP_ID counter is modelled as the explicit `tmpId` argument.  The source
    additionally names a fresh version on the new branch after the branch
    string; the name plays no semantic role, so the model creates the marker
    with the fork version pair. -/
def snapshot_at_height (height : Nat) (st : EvmState) (pfx : String)
    (tmpId : Nat) : Except String (String × EvmState) :=
  if height > 0 then
    let ver := VsVersion.mk height U64MAX
    let branchTmp := pfx ++ "_" ++ toString height ++ "_" ++ toString tmpId
    match st.branchCreateByBaseVersion branchTmp MAIN_BRANCH_NAME ver with
    | .error e => .error e
    | .ok st1 =>
      match st1.versionCreateByBranch ver branchTmp with
      | .error e => .error e
      | .ok st2 => .ok (branchTmp, st2)
  else .error "block height cannot be 0"

/-- eth_call / eth_estimateGas request. -/
structure CallRequest where
  fromAddr : Option Nat
  toAddr : Option Nat
  gas : Option Nat
  gasPrice : Option Nat
  value : Option Nat
  data : Option (List Nat)
deriving DecidableEq

structure CallContractResp where
  evmSucceed : Bool
  data : List Nat
  gasUsed : Nat
deriving DecidableEq

/-- The external EVM interpreter run by contract_handle, supplied as a
    parameter: it sees the request, the caller, the computed gas limit and
    the backend's account view. -/
abbrev CallExecOracle := CallRequest → Nat → Nat → AccountView → ExecOutcome

/-- ethvm::State::contract_handle: resolve the height, take a snapshot
    branch at it, build the backend — over `branchName`, the caller-supplied
    branch, which is how the source reads — run the interpreter transiently
    (no state application), remove the snapshot branch, and return exit
    reason, data and used gas.  `none` models the checked_div unwrap panic on
    an explicit zero gas price. -/
def State.contract_handle (st : EvmState) (branchName : String)
    (req : CallRequest) (bn : Option BlockNumber) (tmpId : Nat)
    (oracle : CallExecOracle) : Option (Except String (CallContractResp × EvmState)) :=
  let isCall := req.toAddr.isSome
  let caller := req.fromAddr.getD 0
  let gas := match req.gas with
    | some g => min g U64MAX
    | none => U64MAX
  let gasPrice := min (req.gasPrice.getD 1) U64MAX
  if gasPrice = 0 then none
  else
    let gasLimit := gas / gasPrice
    let height := block_number_to_height_evm bn st
    match snapshot_at_height height st "call_contract" tmpId with
    | .error e => some (.error e)
    | .ok (branchTmp, st1) =>
      let view : AccountView :=
        fun a => (st1.getAccountByBranch branchName a).getD OvrAccount.zeroed
      let out := oracle req caller gasLimit view
      let ccResp : CallContractResp :=
        { evmSucceed := out.exitSucceed,
          data := if isCall then out.extraData else [],
          gasUsed := out.gasUsed }
      match st1.branchRemove branchTmp with
      | .error e => some (.error e)
      | .ok st2 => some (.ok (ccResp, st2))

/-! ## JSON-RPC handlers (rpc/eth.rs)

Each handler returns the RPC value together with the state it leaves behind.
The helpers `rollback_by_height`, `remove_branch_by_name` and
`tx_to_web3_tx` live in rpc/utils.rs, which is not part of the provided
sources; they are modelled from the spec (section 4.7). -/

/-- BASE_GAS. -/
def BASE_GAS : Nat := 21000

/-- Modelled from the spec: rpc/utils.rs rollback_by_height resolves the
    optional block number and calls rollback_to_height with the given prefix,
    surfacing the failure as a JSON-RPC error (section 4.7). -/
def rollback_by_height (bn : Option BlockNumber) (st : EvmState) (pfx : String) :
    Except String (String × EvmState) :=
  match rollback_to_height_evm (block_number_to_height_evm bn st) st pfx with
  | .error e => .error ("rollback to height: " ++ e)
  | .ok r => .ok r

/-- Modelled from the spec: rpc/utils.rs remove_branch_by_name removes the
    named ephemeral branch from the given EVM state (section 4.7: remove the
    branch on all exit paths), surfacing the failure as a JSON-RPC error. -/
def remove_branch_by_name_evm (name : String) (st : EvmState) :
    Except String EvmState :=
  match st.branchRemove name with
  | .error e => .error ("remove branch: " ++ e)
  | .ok st1 => .ok st1

/-- Modelled from the spec: remove_branch_by_name, ledger-state mode. -/
def remove_branch_by_name_ledger (name : String) (st : LedgerState) :
    Except String LedgerState :=
  match st.branchRemove name with
  | .error e => .error ("remove branch: " ++ e)
  | .ok st1 => .ok st1

/-- Modelled from the spec: rpc/utils.rs tx_to_web3_tx converts a stored
    transaction of a block into a web3 Transaction object; the conversion is
    external presentation logic, so the model returns the transaction
    itself. -/
def tx_to_web3_tx (t : EvmTx) (blk : Block) (height idx chainId : Nat) :
    Except String (Option EvmTx) :=
  .ok (some t)

/-- eth_getBalance: create the ephemeral branch for the requested height,
    read the account — through `accounts.get`, i.e. on the state's default
    branch, exactly as the source does — then remove the branch. -/
def EthApiImpl.balance (st : EvmState) (address : Nat) (bn : Option BlockNumber) :
    Except String (Nat × EvmState) :=
  match rollback_by_height bn st "balance" with
  | .error e => .error e
  | .ok (newBranchName, st1) =>
    let bal := match st1.getAccount address with
      | some account => account.balance
      | none => 0
    match remove_branch_by_name_evm newBranchName st1 with
    | .error e => .error e
    | .ok st2 => .ok (bal, st2)

/-- eth_getStorageAt: same shape as balance, reading storages.get on the
    default branch. -/
def EthApiImpl.storage_at (st : EvmState) (addr slot : Nat)
    (bn : Option BlockNumber) : Except String (Nat × EvmState) :=
  match rollback_by_height bn st "storage_at" with
  | .error e => .error e
  | .ok (newBranchName, st1) =>
    let val := (st1.getStorage (addr, slot)).getD 0
    match remove_branch_by_name_evm newBranchName st1 with
    | .error e => .error e
    | .ok st2 => .ok (val, st2)

/-- eth_getCode: same shape as balance, reading the account code on the
    default branch. -/
def EthApiImpl.code_at (st : EvmState) (addr : Nat) (bn : Option BlockNumber) :
    Except String (List Nat × EvmState) :=
  match rollback_by_height bn st "code_at" with
  | .error e => .error e
  | .ok (newBranchName, st1) =>
    let bytes := match st1.getAccount addr with
      | some account => account.code
      | none => []
    match remove_branch_by_name_evm newBranchName st1 with
    | .error e => .error e
    | .ok st2 => .ok (bytes, st2)

/-- eth_getTransactionCount: resolves the height and rolls back on the
    ledger state, reads the nonce via accounts.get (default branch), removes
    the branch on the ledger state. -/
def EthApiImpl.transaction_count (st : LedgerState) (addr : Nat)
    (bn : Option BlockNumber) : Except String (Nat × LedgerState) :=
  let height := block_number_to_height_ledger bn st
  match rollback_to_height_ledger height st "transaction_count" with
  | .error e => .error ("rollback to height: " ++ e)
  | .ok (newBranchName, st1) =>
    let nonce := match st1.evm.getAccount addr with
      | some account => account.nonce
      | none => 0
    match remove_branch_by_name_ledger newBranchName st1 with
    | .error e => .error e
    | .ok st2 => .ok (nonce, st2)

/-- eth_getBlockTransactionCountByNumber: rolls back on the LEDGER state but
    removes the branch from the EVM state, exactly as the source does
    (rpc/eth.rs lines 479-505). -/
def EthApiImpl.block_transaction_count_by_number (st : LedgerState)
    (bn : BlockNumber) : Except String (Nat × LedgerState) :=
  let height := block_number_to_height_ledger (some bn) st
  match rollback_to_height_ledger height st "block_transaction_count_by_number" with
  | .error e => .error ("rollback to height: " ++ e)
  | .ok (newBranchName, st1) =>
    let txCount := match mapGet st1.blocks height with
      | some blk => blk.txs.length
      | none => 0
    match remove_branch_by_name_evm newBranchName st1.evm with
    | .error e => .error e
    | .ok evm2 => .ok (txCount, { st1 with evm := evm2 })

/-- eth_getTransactionByBlockNumberAndIndex: rolls back on the LEDGER state;
    on a conversion error it returns WITHOUT removing the branch, and on
    success it removes the branch from the EVM state, exactly as the source
    does (rpc/eth.rs lines 704-748). -/
def EthApiImpl.transaction_by_block_number_and_index (st : LedgerState)
    (bn : BlockNumber) (index : Nat) :
    Except String (Option EvmTx × LedgerState) :=
  let height := block_number_to_height_ledger (some bn) st
  match rollback_to_height_ledger height st
      "transaction_by_block_number_and_index" with
  | .error e => .error ("rollback to height: " ++ e)
  | .ok (newBranchName, st1) =>
    let step : Except String (Option EvmTx) :=
      match mapGet st1.blocks height with
      | some blk =>
        match blk.txs[index]? with
        | some t => tx_to_web3_tx t blk height index st1.chainId
        | none => .ok none
      | none => .ok none
    match step with
    | .error e => .error e
    | .ok transaction =>
      match remove_branch_by_name_evm newBranchName st1.evm with
      | .error e => .error e
      | .ok evm2 => .ok (transaction, { st1 with evm := evm2 })

/-- eth_call: run contract_handle over the Main branch name and return the
    returned data. -/
def EthApiImpl.call (st : EvmState) (req : CallRequest) (bn : Option BlockNumber)
    (tmpId : Nat) (oracle : CallExecOracle) :
    Option (Except String (List Nat × EvmState)) :=
  match State.contract_handle st MAIN_BRANCH_NAME req bn tmpId oracle with
  | none => none
  | some (.error e) => some (.error ("call contract failed: " ++ e))
  | some (.ok (resp, st2)) => some (.ok (resp.data, st2))

/-- eth_estimateGas: run contract_handle over the Main branch name and
    report used_gas + BASE_GAS. -/
def EthApiImpl.estimate_gas (st : EvmState) (req : CallRequest)
    (bn : Option BlockNumber) (tmpId : Nat) (oracle : CallExecOracle) :
    Option (Except String (Nat × EvmState)) :=
  match State.contract_handle st MAIN_BRANCH_NAME req bn tmpId oracle with
  | none => none
  | some (.error e) => some (.error ("call contract failed: " ++ e))
  | some (.ok (resp, st2)) => some (.ok (resp.gasUsed + BASE_GAS, st2))

/-! ## Spec-side reference semantics and concrete scenarios -/

/-- The spec's reference meaning of a historical balance (invariant 7,
    "Rewind fidelity"): the balance account `a` had at the end of block `h`,
    i.e. a read through only the Main-branch layers whose versions carry a
    block height of at most `h`. -/
def balanceAtEndOfBlock (st : EvmState) (h : Nat) (a : Nat) : Nat :=
  match st.getBranch MAIN_BRANCH_NAME with
  | none => 0
  | some br =>
    match lookupAccount (br.layers.filter (fun pr => Nat.ble pr.1.blockHeight h)) a with
    | some acct => acct.balance
    | none => 0

/-- A one-account layer. -/
def oneAcctLayer (a : Nat) (acct : OvrAccount) : Layer :=
  { accounts := [(a, acct)], storages := [] }

/-- Scenario S4 of the spec: three committed blocks, each transferring 10 to
    account 66, so 66 holds 10 / 20 / 30 at the ends of blocks 1 / 2 / 3. -/
def s4Main : Branch :=
  { name := "Main",
    own := [(⟨3, 0⟩, oneAcctLayer 66 ⟨0, 30, []⟩),
            (⟨2, 0⟩, oneAcctLayer 66 ⟨0, 20, []⟩),
            (⟨1, 0⟩, oneAcctLayer 66 ⟨0, 10, []⟩)],
    base := [] }

def s4State : EvmState :=
  { branches := [s4Main], defaultBranch := "Main", gasPrice := 10,
    blockGasLimit := 1000000000, blockBaseFeePerGas := 0,
    blockHashes := [(1, hashSha3 [1]), (2, hashSha3 [2]), (3, hashSha3 [3])],
    vicinity := OvrVicinity.zeroed }

/-- Scenario for contract_handle: account 7 holds 10 / 20 / 30 at the ends
    of blocks 1 / 2 / 3 on Main. -/
def c3Main : Branch :=
  { name := "Main",
    own := [(⟨3, 0⟩, oneAcctLayer 7 ⟨0, 30, []⟩),
            (⟨2, 0⟩, oneAcctLayer 7 ⟨0, 20, []⟩),
            (⟨1, 0⟩, oneAcctLayer 7 ⟨0, 10, []⟩)],
    base := [] }

def c3State : EvmState :=
  { branches := [c3Main], defaultBranch := "Main", gasPrice := 10,
    blockGasLimit := 1000000000, blockBaseFeePerGas := 0,
    blockHashes := [(1, hashSha3 [1]), (2, hashSha3 [2]), (3, hashSha3 [3])],
    vicinity := OvrVicinity.zeroed }

def c3Req : CallRequest :=
  { fromAddr := some 7, toAddr := some 9, gas := none, gasPrice := none,
    value := none, data := none }

/-- An interpreter probe that reports the balance of account 7, as the
    execution sees it through the backend, in gas_used: a stand-in for any
    contract whose outcome depends on the state it runs against. -/
def probeOracle : CallExecOracle :=
  fun _req _caller _gasLimit view =>
    { exitSucceed := true, gasUsed := (view 7).balance, extraData := [],
      changes := [], storageChanges := [], logs := [] }

/-- A ledger state with one committed (empty) block at height 1. -/
def c2Block : Block :=
  { header := { height := 1, proposer := List.replicate 20 1, timestamp := 7,
                txMerkle := TxMerkle.emptyTree, prevHash := [], receipts := [] },
    headerHash := hashSha3 [1], txs := [], bloom := List.replicate 256 0 }

def c2EvmMain : Branch :=
  { name := "Main", own := [(⟨1, 0⟩, Layer.empty)], base := [] }

def c2State : LedgerState :=
  { chainId := 9000, chainName := "ovr", chainVersion := "1",
    ledgerBranches := ["Main"],
    evm :=
      { branches := [c2EvmMain], defaultBranch := "Main", gasPrice := 10,
        blockGasLimit := 1000000000, blockBaseFeePerGas := 0,
        blockHashes := [(1, hashSha3 [1])], vicinity := OvrVicinity.zeroed },
    blocks := [(1, c2Block)] }

/-- The branch state the failure path of apply_tx reaches after popping the
    transaction's version and before charging the fee: the original state,
    with a Version::default() version recreated when the branch is left with
    no version of its own. -/
def failPathBranchState (sb : StateBranch) (br : Branch) : StateBranch :=
  if sb.state.evm.branchHasVersions sb.branch then sb
  else
    { sb with
      state :=
        { sb.state with
          evm := sb.state.evm.setBranch
            { br with own := (VsVersion.zeroed, Layer.empty) :: br.own } } }

/-- The partial ExecRet carried by the error of a failed execution. -/
def failPathExecRet (tx : EvmTx) (addr gp : Nat) (out : ExecOutcome) : ExecRet :=
  { success := false, gasUsed := out.gasUsed, feeUsed := out.gasUsed * gp,
    extraData := out.extraData, caller := addr,
    contractAddr := txContractAddr tx addr, logs := out.logs }

/-! Concrete witness data: a Main branch and a DeliverTx branch forked from
    it, account 5 holding 1000 with nonce 0, one committed block, and the
    in-process block at height 2. -/

def wMain : Branch :=
  { name := "Main", own := [(⟨1, 0⟩, oneAcctLayer 5 ⟨0, 1000, []⟩)], base := [] }

def wDeliver : Branch :=
  { name := "DeliverTx", own := [(⟨2, 0⟩, Layer.empty)],
    base := [(⟨1, 0⟩, oneAcctLayer 5 ⟨0, 1000, []⟩)] }

def wEvm : EvmState :=
  { branches := [wMain, wDeliver], defaultBranch := "Main", gasPrice := 10,
    blockGasLimit := 1000000, blockBaseFeePerGas := 0,
    blockHashes := [(1, hashSha3 [1])], vicinity := OvrVicinity.zeroed }

def wLedger : LedgerState :=
  { chainId := 9000, chainName := "ovr", chainVersion := "1",
    ledgerBranches := ["Main", "DeliverTx"], evm := wEvm,
    blocks := [(1, c2Block)] }

def wBlockInProcess : Block :=
  { header := { height := 2, proposer := List.replicate 20 1, timestamp := 9,
                txMerkle := TxMerkle.emptyTree, prevHash := hashSha3 [1],
                receipts := [] },
    headerHash := [], txs := [], bloom := List.replicate 256 0 }

def wSb : StateBranch :=
  { state := wLedger, branch := "DeliverTx", txHashesInProcess := [],
    blockInProcess := wBlockInProcess }

/-- A transaction carrying nonce 5 while account 5 has nonce 0. -/
def tx4 : EvmTx :=
  { tx := .Legacy
      { nonce := 5, gasPrice := 10, gasLimit := 100, action := .Call 9,
        value := 0, input := [] },
    recoveredSigner := some 5 }

/-- A transaction that passes preflight on `wSb`. -/
def tx5 : EvmTx :=
  { tx := .Legacy
      { nonce := 0, gasPrice := 10, gasLimit := 3, action := .Call 9,
        value := 1, input := [] },
    recoveredSigner := some 5 }

/-- An interpreter outcome reporting success and touching nothing. -/
def quietOutcome : ExecOutcome :=
  { exitSucceed := true, gasUsed := 0, extraData := [], changes := [],
    storageChanges := [], logs := [] }

def constOracle : TxExecOracle := fun _tx _caller _gasLimit _view => quietOutcome

/-- An interpreter outcome whose exit reason is not Succeed, using 7 gas. -/
def out5 : ExecOutcome :=
  { exitSucceed := false, gasUsed := 7, extraData := [], changes := [],
    storageChanges := [], logs := [] }

def failOracle : TxExecOracle := fun _tx _caller _gasLimit _view => out5



/-! ## Helper lemmas -/

theorem hashSha3_length (l : List Nat) : (hashSha3 l).length = 32 := by
  simp [hashSha3]

theorem lookupAccount_emptyLayer (L : List (VsVersion × Layer)) (v : VsVersion)
    (a : Nat) :
    lookupAccount ((v, Layer.empty) :: L) a = lookupAccount L a := by
  simp [lookupAccount, assocGet, Layer.empty, List.find?]

theorem replaceBranch_find (l : List Branch) (n : String) (br br1 : Branch)
    (hname : br1.name = n)
    (hfind : l.find? (fun b0 => b0.name == n) = some br) :
    (replaceBranch l br1).find? (fun b0 => b0.name == n) = some br1 := by
  induction l with
  | nil => simp [List.find?] at hfind
  | cons h0 t ih =>
    by_cases hh : h0.name = n
    · simp only [replaceBranch, hname, hh]
      simp [List.find?, hname]
    · have hb : (h0.name == n) = false := by simp [hh]
      have hb1 : (h0.name == br1.name) = false := by simp [hname, hh]
      simp only [List.find?, hb] at hfind
      simp only [replaceBranch, hname, hb1, List.find?, hb]
      exact ih hfind

theorem replaceBranch_restore (l : List Branch) (n : String) (br br1 : Branch)
    (hname : br1.name = n)
    (hfind : l.find? (fun b0 => b0.name == n) = some br) :
    replaceBranch (replaceBranch l br1) br = l := by
  have hbrname : br.name = n := by
    have := List.find?_some hfind
    exact eq_of_beq this
  induction l with
  | nil => simp [List.find?] at hfind
  | cons h0 t ih =>
    by_cases hh : h0.name = n
    · have heq : h0 = br := by
        simp only [List.find?] at hfind
        rw [show (h0.name == n) = true by simp [hh]] at hfind
        simpa using hfind
      simp only [replaceBranch, hname, hh, heq]
      simp [replaceBranch, hbrname, hname]
    · have hb : (h0.name == n) = false := by simp [hh]
      simp only [List.find?, hb] at hfind
      simp only [replaceBranch]
      rw [show (h0.name == br1.name) = false by simp [hname, hh]]
      simp only [replaceBranch]
      rw [show (h0.name == br.name) = false by simp [hbrname, hh]]
      rw [ih hfind]
      simp

theorem getBranch_name (st : EvmState) (b : String) (br : Branch)
    (h : st.getBranch b = some br) : br.name = b := by
  have := List.find?_some h
  exact eq_of_beq this

theorem getBranch_setBranch (st : EvmState) (b : String) (br br1 : Branch)
    (hname : br1.name = b)
    (hbr : st.getBranch b = some br) :
    (st.setBranch br1).getBranch b = some br1 :=
  replaceBranch_find st.branches b br br1 hname hbr

theorem versionCreate_ok (st : EvmState) (v : VsVersion) (b : String) (br : Branch)
    (hbr : st.getBranch b = some br) :
    st.versionCreateByBranch v b
      = .ok (st.setBranch { br with own := (v, Layer.empty) :: br.own }) := by
  unfold EvmState.versionCreateByBranch
  rw [hbr]

theorem getAccount_versionCreate (st st1 : EvmState) (v : VsVersion) (b : String)
    (h : st.versionCreateByBranch v b = .ok st1) (a : Nat) :
    st1.getAccountByBranch b a = st.getAccountByBranch b a := by
  unfold EvmState.versionCreateByBranch at h
  cases hbr : st.getBranch b with
  | none => rw [hbr] at h; cases h
  | some br =>
    rw [hbr] at h
    have hname : br.name = b := getBranch_name st b br hbr
    injection h with h1
    subst h1
    unfold EvmState.getAccountByBranch
    rw [getBranch_setBranch st b br
      { br with own := (v, Layer.empty) :: br.own } hname hbr, hbr]
    show lookupAccount ((v, Layer.empty) :: (br.own ++ br.base)) a
        = lookupAccount (br.own ++ br.base) a
    rw [lookupAccount_emptyLayer]

theorem versionPop_versionCreate (st st1 : EvmState) (v : VsVersion) (b : String)
    (h : st.versionCreateByBranch v b = .ok st1) :
    st1.versionPopByBranch b = .ok st := by
  unfold EvmState.versionCreateByBranch at h
  cases hbr : st.getBranch b with
  | none => rw [hbr] at h; cases h
  | some br =>
    rw [hbr] at h
    have hname : br.name = b := getBranch_name st b br hbr
    injection h with h1
    subst h1
    unfold EvmState.versionPopByBranch
    rw [getBranch_setBranch st b br
      { br with own := (v, Layer.empty) :: br.own } hname hbr]
    show Except.ok
        ((st.setBranch { br with own := (v, Layer.empty) :: br.own }).setBranch br)
        = Except.ok st
    unfold EvmState.setBranch
    congr 1
    show { st with
           branches := replaceBranch
             (replaceBranch st.branches
               { br with own := (v, Layer.empty) :: br.own }) br } = st
    rw [replaceBranch_restore st.branches b br
      { br with own := (v, Layer.empty) :: br.own } hname hbr]

theorem ledger_versionCreate_ok (st : LedgerState) (v : VsVersion) (b : String)
    (br : Branch) (hbr : st.evm.getBranch b = some br) :
    st.versionCreateByBranch v b
      = .ok { st with
              evm := st.evm.setBranch { br with own := (v, Layer.empty) :: br.own } } := by
  unfold LedgerState.versionCreateByBranch
  rw [versionCreate_ok st.evm v b br hbr]

theorem ledger_versionPop_versionCreate (st st1 : LedgerState) (v : VsVersion)
    (b : String) (h : st.versionCreateByBranch v b = .ok st1) :
    st1.versionPopByBranch b = .ok st := by
  unfold LedgerState.versionCreateByBranch at h
  cases he : st.evm.versionCreateByBranch v b with
  | error e => rw [he] at h; cases h
  | ok evm1 =>
    rw [he] at h
    injection h with h1
    subst h1
    unfold LedgerState.versionPopByBranch
    show (match EvmState.versionPopByBranch evm1 b with
          | .error e => Except.error e
          | .ok e => Except.ok { st with evm := e }) = Except.ok st
    rw [versionPop_versionCreate st.evm evm1 v b he]

theorem pre_exec_read_invariant (tx : EvmTx) (sb : StateBranch) (st1 : LedgerState)
    (b : String)
    (hgas : st1.evm.gasPrice = sb.state.evm.gasPrice)
    (hacct : ∀ a, st1.evm.getAccountByBranch b a = sb.state.evm.getAccountByBranch b a) :
    EvmTx.pre_exec tx { sb with state := st1 } b = EvmTx.pre_exec tx sb b := by
  unfold EvmTx.pre_exec EvmTx.check_gas_price EvmTx.check_nonce EvmTx.check_balance
  simp only [hgas, hacct]

theorem applyTx_preflight_err (oracle : TxExecOracle) (sb : StateBranch) (tx : EvmTx)
    (br : Branch) (hbr : sb.state.evm.getBranch sb.branch = some br)
    (hpre : exceptIsError (EvmTx.pre_exec tx sb sb.branch) = true) :
    StateBranch.apply_tx oracle sb tx = some (sb, .error "") := by
  obtain ⟨e, he⟩ : ∃ e, EvmTx.pre_exec tx sb sb.branch = .error e := by
    cases hp : EvmTx.pre_exec tx sb sb.branch with
    | ok v => rw [hp] at hpre; simp [exceptIsError, exceptIsOk] at hpre
    | error e => exact ⟨e, rfl⟩
  have hcreate := ledger_versionCreate_ok sb.state
      (VsVersion.mk sb.blockInProcess.header.height (1 + sb.txHashesInProcess.length))
      sb.branch br hbr
  set st1 : LedgerState :=
    { sb.state with
      evm := sb.state.evm.setBranch
        { br with
          own := (VsVersion.mk sb.blockInProcess.header.height
              (1 + sb.txHashesInProcess.length), Layer.empty) :: br.own } } with hst1
  have hinv : EvmTx.pre_exec tx { sb with state := st1 } sb.branch
      = EvmTx.pre_exec tx sb sb.branch := by
    apply pre_exec_read_invariant
    · rfl
    · intro a
      exact getAccount_versionCreate sb.state.evm st1.evm _ sb.branch
        (versionCreate_ok sb.state.evm _ sb.branch br hbr) a
  have happly : EvmTx.apply oracle tx { sb with state := st1 } sb.branch false
      = some ({ sb with state := st1 }, .error none) := by
    unfold EvmTx.apply
    rw [hinv, he]
  have hpop : st1.versionPopByBranch sb.branch = .ok sb.state :=
    ledger_versionPop_versionCreate sb.state st1 _ sb.branch hcreate
  simp only [StateBranch.apply_tx, hcreate, happly, hpop]

theorem backendApply_nil (st : EvmState) (b : String) :
    backendApply st b [] [] = some st := rfl

theorem insertAccount_ok (st : EvmState) (bn : String) (v : VsVersion) (ly : Layer)
    (rest bbase : List (VsVersion × Layer)) (a : Nat) (acct : OvrAccount) (b : String)
    (hbr : st.getBranch b = some ⟨bn, (v, ly) :: rest, bbase⟩) :
    st.insertAccountByBranch a acct b
      = some (st.setBranch
          ⟨bn, (v, { ly with accounts := (a, acct) :: ly.accounts }) :: rest, bbase⟩) := by
  unfold EvmState.insertAccountByBranch
  rw [hbr]

theorem insertAccount_inv (st : EvmState) (a : Nat) (acct : OvrAccount) (b : String)
    (st1 : EvmState) (h : st.insertAccountByBranch a acct b = some st1) :
    st1.getAccountByBranch b a = some acct := by
  cases hbr : st.getBranch b with
  | none =>
    unfold EvmState.insertAccountByBranch at h
    rw [hbr] at h
    exact Option.noConfusion h
  | some br =>
    obtain ⟨bn, bown, bbase⟩ := br
    cases bown with
    | nil =>
      unfold EvmState.insertAccountByBranch at h
      rw [hbr] at h
      exact Option.noConfusion h
    | cons hd rest =>
      obtain ⟨v, ly⟩ := hd
      unfold EvmState.insertAccountByBranch at h
      rw [hbr] at h
      replace h : some (st.setBranch
          ⟨bn, (v, { ly with accounts := (a, acct) :: ly.accounts }) :: rest, bbase⟩)
          = some st1 := h
      injection h with h1
      subst h1
      have hname : bn = b := getBranch_name st b _ hbr
      unfold EvmState.getAccountByBranch
      rw [getBranch_setBranch st b ⟨bn, (v, ly) :: rest, bbase⟩
        ⟨bn, (v, { ly with accounts := (a, acct) :: ly.accounts }) :: rest, bbase⟩
        hname hbr]
      show lookupAccount
          ((v, { ly with accounts := (a, acct) :: ly.accounts }) :: (rest ++ bbase)) a
          = some acct
      simp [lookupAccount, assocGet, List.find?]

theorem charge_fee_cases (sb : StateBranch) (caller amount : Nat) (b : String)
    (s : StateBranch) (h : sb.charge_fee caller amount b = some s) :
    (amount = 0 ∧ s = sb)
    ∨ (amount ≠ 0 ∧ ∃ account evm1,
        sb.state.evm.getAccountByBranch b caller = some account
        ∧ sb.state.evm.insertAccountByBranch caller
            { account with balance := satSub account.balance amount } b = some evm1
        ∧ s = { sb with state := { sb.state with evm := evm1 } }) := by
  unfold StateBranch.charge_fee at h
  by_cases hz : amount = 0
  · rw [if_pos hz] at h
    injection h with h1
    exact Or.inl ⟨hz, h1.symm⟩
  · rw [if_neg hz] at h
    cases hacct : sb.state.evm.getAccountByBranch b caller with
    | none =>
      rw [hacct] at h
      exact Option.noConfusion h
    | some account =>
      rw [hacct] at h
      replace h : (sb.state.evm.insertAccountByBranch caller
          { account with balance := satSub account.balance amount } b).map
          (fun evm1 => { sb with state := { sb.state with evm := evm1 } }) = some s := h
      rw [Option.map_eq_some'] at h
      obtain ⟨evm1, hins, hs⟩ := h
      exact Or.inr ⟨hz, account, evm1, rfl, hins, hs.symm⟩

theorem charge_fee_fields (sb : StateBranch) (caller amount : Nat) (b : String)
    (s : StateBranch) (h : sb.charge_fee caller amount b = some s) :
    s.txHashesInProcess = sb.txHashesInProcess
    ∧ s.blockInProcess = sb.blockInProcess
    ∧ s.branch = sb.branch := by
  rcases charge_fee_cases sb caller amount b s h with ⟨_, hs⟩ | ⟨_, _, _, _, _, hs⟩ <;>
    subst hs <;> exact ⟨rfl, rfl, rfl⟩

/-! ## Claim C4 -/

/-- C4: Preflight-failure atomicity.  Whenever apply_tx of an EVM
    transaction fails in preflight (the error carries no partial ExecResult),
    apply_tx returns an error, no fee is charged, and the branch state is
    restored exactly — the version created at entry is popped, so every store
    read afterwards returns the same value as before the call. -/
theorem C4_preflight_atomicity (oracle : TxExecOracle) (sb : StateBranch)
    (tx : EvmTx) (br : Branch)
    (hbr : sb.state.evm.getBranch sb.branch = some br)
    (hpre : exceptIsError (EvmTx.pre_exec tx sb sb.branch) = true) :
    StateBranch.apply_tx oracle sb tx = some (sb, .error "") :=
  applyTx_preflight_err oracle sb tx br hbr hpre

/-- Witness for C4 at a concrete input: a nonce-5 transaction against an
    account with nonce 0 on the DeliverTx branch. -/
theorem C4_preflight_atomicity_witness :
    StateBranch.apply_tx constOracle wSb tx4 = some (wSb, .error "") :=
  C4_preflight_atomicity constOracle wSb tx4 wDeliver rfl rfl



theorem failPathBranchState_txHashes (sb : StateBranch) (br : Branch) :
    (failPathBranchState sb br).txHashesInProcess = sb.txHashesInProcess := by
  unfold failPathBranchState
  split <;> rfl

theorem failPathBranchState_block (sb : StateBranch) (br : Branch) :
    (failPathBranchState sb br).blockInProcess = sb.blockInProcess := by
  unfold failPathBranchState
  split <;> rfl

theorem failPathBranchState_read (sb : StateBranch) (br : Branch) (a : Nat)
    (hbr : sb.state.evm.getBranch sb.branch = some br) :
    (failPathBranchState sb br).state.evm.getAccountByBranch sb.branch a
      = sb.state.evm.getAccountByBranch sb.branch a := by
  unfold failPathBranchState
  split
  · rfl
  · exact getAccount_versionCreate sb.state.evm _ VsVersion.zeroed sb.branch
      (versionCreate_ok sb.state.evm VsVersion.zeroed sb.branch br hbr) a

theorem charge_fee_congr_map (sb1 sb2 : StateBranch) (c1 c2 f1 f2 : Nat)
    (b d : String)
    (hsb : sb1 = sb2) (hc : c1 = c2) (hf : f1 = f2) :
    (match StateBranch.charge_fee sb1 c1 f1 b with
     | none => (none : Option (StateBranch × Except String Unit))
     | some sbQ => some (sbQ, Except.error d))
    = Option.map (fun s => (s, (Except.error d : Except String Unit)))
        (StateBranch.charge_fee sb2 c2 f2 b) := by
  subst hsb
  subst hc
  subst hf
  cases StateBranch.charge_fee sb1 c1 f1 b <;> rfl

/-- C5: Execution-failure fee semantics.  Whenever an EVM transaction passes
    preflight but its execution does not succeed, apply_tx pops the
    just-created version (discarding the transaction's writes), recreates a
    Version::default() version if the branch is left without one, still
    debits fee_used = gas_used * effective_gas_price from the caller with a
    saturating subtraction, adds neither the transaction's hash nor its
    receipt to the block in process, and returns an error. -/
theorem C5_exec_failure_fee (oracle : TxExecOracle) (sb : StateBranch) (tx : EvmTx)
    (br : Branch) (addr gp : Nat) (acct : OvrAccount) (out : ExecOutcome)
    (hbr : sb.state.evm.getBranch sb.branch = some br)
    (hpre : EvmTx.pre_exec tx sb sb.branch = .ok (addr, acct, gp))
    (hout : oracle tx addr (min (txGasLimit tx) U64MAX)
        (fun a => (sb.state.evm.getAccountByBranch sb.branch a).getD OvrAccount.zeroed)
        = out)
    (hfail : out.exitSucceed = false) :
    StateBranch.apply_tx oracle sb tx =
      (StateBranch.charge_fee (failPathBranchState sb br) addr (out.gasUsed * gp)
          sb.branch).map
        (fun s => (s, Except.error (ExecRet.display (failPathExecRet tx addr gp out))))
    ∧ ∀ s, StateBranch.charge_fee (failPathBranchState sb br) addr (out.gasUsed * gp)
          sb.branch = some s →
        s.txHashesInProcess = sb.txHashesInProcess
        ∧ s.blockInProcess = sb.blockInProcess
        ∧ (out.gasUsed * gp ≠ 0 →
            (s.state.evm.getAccountByBranch sb.branch addr).map (fun x => x.balance)
              = (sb.state.evm.getAccountByBranch sb.branch addr).map
                  (fun x => satSub x.balance (out.gasUsed * gp))) := by
  have hcreate := ledger_versionCreate_ok sb.state
      (VsVersion.mk sb.blockInProcess.header.height (1 + sb.txHashesInProcess.length))
      sb.branch br hbr
  set st1 : LedgerState :=
    { sb.state with
      evm := sb.state.evm.setBranch
        { br with
          own := (VsVersion.mk sb.blockInProcess.header.height
              (1 + sb.txHashesInProcess.length), Layer.empty) :: br.own } } with hst1
  have hreads : ∀ a, st1.evm.getAccountByBranch sb.branch a
      = sb.state.evm.getAccountByBranch sb.branch a := fun a =>
    getAccount_versionCreate sb.state.evm st1.evm _ sb.branch
      (versionCreate_ok sb.state.evm _ sb.branch br hbr) a
  have hinv : EvmTx.pre_exec tx { sb with state := st1 } sb.branch
      = EvmTx.pre_exec tx sb sb.branch :=
    pre_exec_read_invariant tx sb st1 sb.branch rfl hreads
  have hview : (fun a => (st1.evm.getAccountByBranch sb.branch a).getD OvrAccount.zeroed)
      = (fun a => (sb.state.evm.getAccountByBranch sb.branch a).getD OvrAccount.zeroed) :=
    funext (fun a => by rw [hreads a])
  have hexec : EvmTx.exec oracle tx addr { sb with state := st1 } sb.branch gp false
      = some ({ sb with state := st1 }, failPathExecRet tx addr gp out) := by
    unfold EvmTx.exec
    show (backendApply st1.evm sb.branch _ _).map _ = _
    rw [hview, hout, hfail]
    simp only [Bool.false_eq_true, if_neg, ite_false]
    rw [backendApply_nil]
    simp only [Option.map_some']
    rfl
  have happly : EvmTx.apply oracle tx { sb with state := st1 } sb.branch false
      = some ({ sb with state := st1 },
          .error (some (failPathExecRet tx addr gp out))) := by
    unfold EvmTx.apply
    rw [hinv, hpre]
    show (EvmTx.exec oracle tx addr { sb with state := st1 } sb.branch gp false).map _ = _
    rw [hexec]
    simp only [Option.map_some']
    have hsucc : (failPathExecRet tx addr gp out).success = false := rfl
    rw [hsucc]
    simp
  have hpop : st1.versionPopByBranch sb.branch = .ok sb.state :=
    ledger_versionPop_versionCreate sb.state st1 _ sb.branch hcreate
  constructor
  · simp only [StateBranch.apply_tx, hcreate, happly, hpop]
    by_cases hv : sb.state.evm.branchHasVersions sb.branch
    · have hfp : failPathBranchState sb br = sb := by
        unfold failPathBranchState
        rw [if_pos hv]
      have hbv : LedgerState.branchHasVersions sb.state sb.branch = true := hv
      rw [show LedgerState.branchHasVersions sb.state sb.branch = true from hbv]
      simp only [if_pos]
      exact charge_fee_congr_map sb (failPathBranchState sb br) _ addr _
        (out.gasUsed * gp) sb.branch _ hfp.symm rfl rfl
    · have hvf : sb.state.evm.branchHasVersions sb.branch = false := by
        simpa using hv
      have hbv : LedgerState.branchHasVersions sb.state sb.branch = false := hvf
      have hfp : failPathBranchState sb br
          = { sb with
              state :=
                { sb.state with
                  evm := sb.state.evm.setBranch
                    { br with own := (VsVersion.zeroed, Layer.empty) :: br.own } } } := by
        unfold failPathBranchState
        rw [if_neg]
        exact hv
      rw [show LedgerState.branchHasVersions sb.state sb.branch = false from hbv]
      simp only [Bool.false_eq_true, if_false]
      rw [ledger_versionCreate_ok sb.state VsVersion.zeroed sb.branch br hbr]
      exact charge_fee_congr_map _ (failPathBranchState sb br) _ addr _
        (out.gasUsed * gp) sb.branch _ hfp.symm rfl rfl
  · intro s hs
    obtain ⟨h1, h2, h3⟩ := charge_fee_fields _ addr (out.gasUsed * gp) sb.branch s hs
    refine ⟨h1.trans (failPathBranchState_txHashes sb br),
      h2.trans (failPathBranchState_block sb br), ?_⟩
    intro hnz
    rcases charge_fee_cases _ addr (out.gasUsed * gp) sb.branch s hs with
      ⟨hz, _⟩ | ⟨_, account, evm1, hacct, hins, hsdef⟩
    · exact absurd hz hnz
    · subst hsdef
      show (evm1.getAccountByBranch sb.branch addr).map (fun x => x.balance) = _
      rw [insertAccount_inv _ addr _ sb.branch evm1 hins]
      rw [failPathBranchState_read sb br addr hbr] at hacct
      rw [hacct]
      rfl


/-- Witness for C5 at a concrete input: a preflight-passing transfer whose
    execution fails with 7 gas used at gas price 10. -/
theorem C5_exec_failure_fee_witness :
    StateBranch.apply_tx failOracle wSb tx5 =
      (StateBranch.charge_fee (failPathBranchState wSb wDeliver) 5 (out5.gasUsed * 10)
          wSb.branch).map
        (fun s => (s, Except.error (ExecRet.display (failPathExecRet tx5 5 10 out5))))
    ∧ ∀ s, StateBranch.charge_fee (failPathBranchState wSb wDeliver) 5 (out5.gasUsed * 10)
          wSb.branch = some s →
        s.txHashesInProcess = wSb.txHashesInProcess
        ∧ s.blockInProcess = wSb.blockInProcess
        ∧ (out5.gasUsed * 10 ≠ 0 →
            (s.state.evm.getAccountByBranch wSb.branch 5).map (fun x => x.balance)
              = (wSb.state.evm.getAccountByBranch wSb.branch 5).map
                  (fun x => satSub x.balance (out5.gasUsed * 10))) :=
  C5_exec_failure_fee failOracle wSb tx5 wDeliver 5 10 ⟨0, 1000, []⟩ out5 rfl rfl rfl rfl

/-- C6: Balance preflight.  Once the gas-price, signature and nonce checks
    have passed, preflight fails exactly when gas_limit is zero, when
    gas_price * gas_limit or value + gas_price * gas_limit overflows 256
    bits, or when the needed amount exceeds the sender's balance on the
    branch (an absent account reading as zero balance). -/
theorem C6_balance_preflight (tx : EvmTx) (sb : StateBranch) (b : String)
    (addr gp : Nat)
    (hgp : tx.check_gas_price sb b = .ok gp)
    (hsig : tx.recoveredSigner = some addr)
    (hnonce : tx.check_nonce addr sb b = .ok ()) :
    exceptIsError (tx.pre_exec sb b) = true ↔
      (txGasLimit tx = 0
       ∨ checkedMul gp (txGasLimit tx) = none
       ∨ (∃ feeLimit, checkedMul gp (txGasLimit tx) = some feeLimit
            ∧ checkedAdd (txValue tx) feeLimit = none)
       ∨ (∃ feeLimit needed, checkedMul gp (txGasLimit tx) = some feeLimit
            ∧ checkedAdd (txValue tx) feeLimit = some needed
            ∧ ((sb.state.evm.getAccountByBranch b addr).getD OvrAccount.zeroed).balance
                < needed)) := by
  unfold EvmTx.pre_exec
  simp only [hgp, EvmTx.recover_signer, hsig, hnonce]
  unfold EvmTx.check_balance
  by_cases h0 : txGasLimit tx = 0
  · rw [if_pos h0]
    simp [exceptIsError, exceptIsOk, h0]
  · rw [if_neg h0]
    cases hm : checkedMul gp (txGasLimit tx) with
    | none => simp [exceptIsError, exceptIsOk, h0, hm]
    | some feeLimit =>
      cases ha : checkedAdd (txValue tx) feeLimit with
      | none => simp [exceptIsError, exceptIsOk, h0, hm, ha]
      | some needed =>
        by_cases hbal :
            needed ≤ ((sb.state.evm.getAccountByBranch b addr).getD OvrAccount.zeroed).balance
        · simp [exceptIsError, exceptIsOk, h0, ha, hbal]
        · simp [exceptIsError, exceptIsOk, h0, ha, hbal]
          omega

/-- Witness for C6 at a concrete input: the transaction needs 31 while the
    account holds 1000, so preflight does not reject. -/
theorem C6_balance_preflight_witness :
    exceptIsError (tx5.pre_exec wSb "DeliverTx") = true ↔
      (txGasLimit tx5 = 0
       ∨ checkedMul 10 (txGasLimit tx5) = none
       ∨ (∃ feeLimit, checkedMul 10 (txGasLimit tx5) = some feeLimit
            ∧ checkedAdd (txValue tx5) feeLimit = none)
       ∨ (∃ feeLimit needed, checkedMul 10 (txGasLimit tx5) = some feeLimit
            ∧ checkedAdd (txValue tx5) feeLimit = some needed
            ∧ ((wSb.state.evm.getAccountByBranch "DeliverTx" 5).getD
                OvrAccount.zeroed).balance < needed)) :=
  C6_balance_preflight tx5 wSb "DeliverTx" 5 10 rfl rfl rfl

/-- C7: Nonce preflight.  The nonce check rejects exactly when the
    transaction nonce differs from the account nonce on the branch (an
    absent account reading as nonce 0); on a mismatch preflight returns the
    error message "Invalid nonce: t, should be: s" verbatim, and apply_tx
    leaves the branch state unchanged. -/
theorem C7_nonce_preflight (oracle : TxExecOracle) (tx : EvmTx) (sb : StateBranch)
    (b : String) (addr gp : Nat)
    (hgp : tx.check_gas_price sb b = .ok gp)
    (hsig : tx.recoveredSigner = some addr) :
    ((tx.check_nonce addr sb b = .ok ()) ↔
        txNonce tx
          = ((sb.state.evm.getAccountByBranch b addr).map (fun a => a.nonce)).getD 0)
    ∧ (txNonce tx
          ≠ ((sb.state.evm.getAccountByBranch b addr).map (fun a => a.nonce)).getD 0 →
        tx.pre_exec sb b
          = .error ("Invalid nonce: " ++ toString (txNonce tx) ++ ", should be: "
              ++ toString (((sb.state.evm.getAccountByBranch b addr).map
                  (fun a => a.nonce)).getD 0)))
    ∧ (∀ br, b = sb.branch → sb.state.evm.getBranch sb.branch = some br →
        txNonce tx
          ≠ ((sb.state.evm.getAccountByBranch b addr).map (fun a => a.nonce)).getD 0 →
        StateBranch.apply_tx oracle sb tx = some (sb, .error "")) := by
  have hmsg : ∀ hne : txNonce tx
      ≠ ((sb.state.evm.getAccountByBranch b addr).map (fun a => a.nonce)).getD 0,
      tx.pre_exec sb b
        = .error ("Invalid nonce: " ++ toString (txNonce tx) ++ ", should be: "
            ++ toString (((sb.state.evm.getAccountByBranch b addr).map
                (fun a => a.nonce)).getD 0)) := by
    intro hne
    unfold EvmTx.pre_exec
    simp only [hgp, EvmTx.recover_signer, hsig]
    unfold EvmTx.check_nonce
    rw [if_neg hne]
  refine ⟨?_, hmsg, ?_⟩
  · unfold EvmTx.check_nonce
    by_cases he : txNonce tx
        = ((sb.state.evm.getAccountByBranch b addr).map (fun a => a.nonce)).getD 0
    · rw [if_pos he]
      simp [he]
    · rw [if_neg he]
      simp [he]
  · intro br hb hbr hne
    apply applyTx_preflight_err oracle sb tx br hbr
    rw [← hb, hmsg hne]
    rfl

/-- Witness for C7 at a concrete input: a nonce-5 transaction against an
    account with nonce 0, rejected with "Invalid nonce: 5, should be: 0". -/
theorem C7_nonce_preflight_witness :
    ((tx4.check_nonce 5 wSb "DeliverTx" = .ok ()) ↔
        txNonce tx4
          = ((wSb.state.evm.getAccountByBranch "DeliverTx" 5).map
              (fun a => a.nonce)).getD 0)
    ∧ (txNonce tx4
          ≠ ((wSb.state.evm.getAccountByBranch "DeliverTx" 5).map
              (fun a => a.nonce)).getD 0 →
        tx4.pre_exec wSb "DeliverTx"
          = .error ("Invalid nonce: " ++ toString (txNonce tx4) ++ ", should be: "
              ++ toString (((wSb.state.evm.getAccountByBranch "DeliverTx" 5).map
                  (fun a => a.nonce)).getD 0)))
    ∧ (∀ br, "DeliverTx" = wSb.branch → wSb.state.evm.getBranch wSb.branch = some br →
        txNonce tx4
          ≠ ((wSb.state.evm.getAccountByBranch "DeliverTx" 5).map
              (fun a => a.nonce)).getD 0 →
        StateBranch.apply_tx constOracle wSb tx4 = some (wSb, .error "")) :=
  C7_nonce_preflight constOracle tx4 wSb "DeliverTx" 5 10 rfl rfl

/-! ## Merkle and map lemmas for commit -/

theorem merkleLevel_cons2 (a b : List Nat) (rest : List (List Nat)) :
    merkleLevel (a :: b :: rest) = hashSha3 (a ++ b) :: merkleLevel rest := rfl

theorem merkleLevel_length_le : ∀ (l : List (List Nat)), (merkleLevel l).length ≤ l.length
  | [] => by simp [merkleLevel]
  | [a] => by simp [merkleLevel]
  | a :: b :: rest => by
    have ih := merkleLevel_length_le rest
    rw [merkleLevel_cons2]
    simp only [List.length_cons]
    omega

theorem merkleRootAux_spec (fuel : Nat) : ∀ (l : List (List Nat)), l.length ≤ fuel + 1 →
    (∀ a, l = [a] → merkleRootAux fuel l = some a)
    ∧ (2 ≤ l.length → ∃ r, merkleRootAux fuel l = some r ∧ r.length = 32) := by
  induction fuel with
  | zero =>
    intro l hlen
    constructor
    · intro a ha; subst ha; rfl
    · intro h2; omega
  | succ n ih =>
    intro l hlen
    constructor
    · intro a ha; subst ha; rfl
    · intro h2
      match l, h2 with
      | a :: b :: rest, _ =>
        have hstep : merkleRootAux (n + 1) (a :: b :: rest)
            = merkleRootAux n (merkleLevel (a :: b :: rest)) := rfl
        have hlev : (merkleLevel (a :: b :: rest)).length ≤ n + 1 := by
          have h1 := merkleLevel_length_le rest
          rw [merkleLevel_cons2]
          simp only [List.length_cons] at hlen ⊢
          omega
        cases hr : merkleLevel rest with
        | nil =>
          have hone : merkleLevel (a :: b :: rest) = [hashSha3 (a ++ b)] := by
            rw [merkleLevel_cons2, hr]
          rw [hstep, hone]
          exact ⟨hashSha3 (a ++ b),
            (ih [hashSha3 (a ++ b)] (by simp)).1 _ rfl, hashSha3_length _⟩
        | cons c cs =>
          have h2lvl : 2 ≤ (merkleLevel (a :: b :: rest)).length := by
            rw [merkleLevel_cons2, hr]; simp
          rw [hstep]
          exact (ih _ hlev).2 h2lvl

theorem merkleRoot_sentinel (txs : List (List Nat)) :
    ∃ r, merkleRoot (txs ++ [hashSha3 []]) = some r ∧ r.length = 32 := by
  cases txs with
  | nil => exact ⟨hashSha3 [], rfl, hashSha3_length _⟩
  | cons a t =>
    have h2 : 2 ≤ (a :: t ++ [hashSha3 []]).length := by simp
    exact (merkleRootAux_spec (a :: t ++ [hashSha3 []]).length _ (by omega)).2 h2

theorem take_hashSha3 (l : List Nat) : (hashSha3 l).take 32 = hashSha3 l :=
  List.take_of_length_le (by rw [hashSha3_length])

theorem block_hash_format_hashSha3 (l : List Nat) :
    block_hash_to_evm_format (hashSha3 l) = some (hashSha3 l) := by
  unfold block_hash_to_evm_format
  rw [hashSha3_length]
  simp [H256LEN, take_hashSha3]

theorem mapGet_mapInsert {β : Type} (m : List (Nat × β)) (k : Nat) (v : β) :
    mapGet (mapInsert m k v) k = some v := by
  induction m with
  | nil => simp [mapInsert, mapGet, assocGet, List.find?]
  | cons h0 t ih =>
    obtain ⟨k0, v0⟩ := h0
    by_cases h1 : k < k0
    · simp [mapInsert, h1, mapGet, assocGet, List.find?]
    · by_cases h2 : k = k0
      · simp [mapInsert, h1, h2, mapGet, assocGet, List.find?]
      · have hne : (k0 == k) = false := by
          simp only [beq_eq_false_iff_ne, ne_eq]
          omega
        simp only [mapInsert, if_neg h1, if_neg h2]
        simp only [mapGet, assocGet, List.find?, hne] at ih ⊢
        exact ih

/-- C8: Merkle nonemptiness.  Every execution of commit — including one for
    a block that received zero transactions — first appends the sentinel
    SHA3_256 of the empty byte string to tx_hashes_in_process, making the
    Merkle input nonempty, and the committed block carries a 32-byte (hence
    non-empty) tx_merkle.root_hash. -/
theorem C8_merkle_nonempty (sb : StateBranch) :
    ∃ sb' blk,
      StateBranch.commit sb = some sb'
      ∧ sb'.txHashesInProcess = sb.txHashesInProcess ++ [hashSha3 []]
      ∧ mapGet sb'.state.blocks sb.blockInProcess.header.height = some blk
      ∧ blk.header.txMerkle.rootHash.length = 32
      ∧ blk.header.txMerkle.rootHash ≠ [] := by
  obtain ⟨r, hr, hlen⟩ := merkleRoot_sentinel sb.txHashesInProcess
  unfold StateBranch.commit
  simp only [hr]
  rw [show BlockHeader.hashOf _ = hashSha3 (BlockHeader.encodeContents _) from rfl,
    block_hash_format_hashSha3]
  refine ⟨_, _, rfl, rfl, mapGet_mapInsert _ _ _, hlen, ?_⟩
  show r ≠ []
  intro hnil
  rw [hnil] at hlen
  simp at hlen

/-! ## Claims C1, C2, C3, C9, C10 -/

/-- C1: the code evaluated at the spec's S4 scenario.  After three blocks in
    which account 66 holds 10 / 20 / 30, balance(66, at=Num 2) returns the
    live Main-tip balance 30 — the handler's read names no branch, so it is
    served by the default (Main) branch and not by the ephemeral branch it
    created — while the balance 66 had at the end of block 2 is 20. -/
theorem C1_rewind_balance_code_eval :
    EthApiImpl.balance s4State 66 (some (BlockNumber.Num 2)) = .ok (30, s4State)
    ∧ balanceAtEndOfBlock s4State 2 66 = 20
    ∧ (30 : Nat) ≠ 20 :=
  ⟨rfl, rfl, by omega⟩

/-- C2: the code evaluated at a one-block state.  The handler creates its
    ephemeral branch on the ledger state but removes it from the EVM state,
    so after a successful call a branch named with the call's prefix remains
    on the ledger state, and the next call for the same height fails. -/
theorem C2_cleanup_code_eval :
    (match EthApiImpl.block_transaction_count_by_number c2State (BlockNumber.Num 1) with
     | .ok pr =>
       pr.2.ledgerBranches.contains "block_transaction_count_by_number_2"
         && exceptIsError
              (EthApiImpl.block_transaction_count_by_number pr.2 (BlockNumber.Num 1))
     | .error _ => false) = true := rfl

/-- C3: the code evaluated with a state-distinguishing interpreter.  With
    account 7 holding 30 at the Main tip but 20 as of block 2, estimate_gas
    at Num 2 reports 30 + 21000: contract_handle builds its backend over the
    caller-supplied Main branch, not over the snapshot branch it creates —
    whose own view of account 7, shown by the second conjunct, is 20. -/
theorem C3_call_branch_code_eval :
    EthApiImpl.estimate_gas c3State c3Req (some (BlockNumber.Num 2)) 0 probeOracle
      = some (.ok (30 + 21000, c3State))
    ∧ (match snapshot_at_height 2 c3State "call_contract" 0 with
       | .ok pr => (pr.2.getAccountByBranch pr.1 7).map (fun acct => acct.balance)
       | .error _ => none) = some 20 :=
  ⟨rfl, rfl⟩

/-- C9: the code evaluated at proposer byte strings of length 19, 20 and 25.
    tm_proposer_to_evm_format panics (modelled as none) on any input shorter
    than 20 bytes, because copy_from_slice requires the source slice — of
    length min(20, len) — to fill the whole 20-byte buffer; longer inputs
    are truncated to their first 20 bytes. -/
theorem C9_proposer_map_code_eval :
    tm_proposer_to_evm_format (List.replicate 19 1) = none
    ∧ tm_proposer_to_evm_format (List.replicate 20 2) = some (List.replicate 20 2)
    ∧ tm_proposer_to_evm_format (List.replicate 25 3) = some (List.replicate 20 3) :=
  ⟨rfl, by decide, by decide⟩

/-- C10: requesting the Pending block always errors on the rewinding RPCs:
    block_number_to_height maps Pending to 0, rollback_to_height rejects
    height 0 with "block height cannot be 0", and each of the six handlers
    that resolve their block number this way returns an error. -/
theorem C10_pending_errors (est : EvmState) (lst : LedgerState) (a slot idx : Nat) :
    block_number_to_height_evm (some BlockNumber.Pending) est = 0
    ∧ block_number_to_height_ledger (some BlockNumber.Pending) lst = 0
    ∧ rollback_to_height_evm 0 est "balance" = .error "block height cannot be 0"
    ∧ exceptIsError (EthApiImpl.balance est a (some BlockNumber.Pending)) = true
    ∧ exceptIsError (EthApiImpl.storage_at est a slot (some BlockNumber.Pending)) = true
    ∧ exceptIsError (EthApiImpl.code_at est a (some BlockNumber.Pending)) = true
    ∧ exceptIsError (EthApiImpl.transaction_count lst a (some BlockNumber.Pending)) = true
    ∧ exceptIsError
        (EthApiImpl.block_transaction_count_by_number lst BlockNumber.Pending) = true
    ∧ exceptIsError
        (EthApiImpl.transaction_by_block_number_and_index lst BlockNumber.Pending idx)
        = true :=
  ⟨rfl, rfl, rfl, rfl, rfl, rfl, rfl, rfl, rfl⟩

/-- Witness for C8 at a concrete input: committing the in-process block of
    `wSb` (which carries zero transactions). -/
theorem C8_merkle_nonempty_witness :
    ∃ sb' blk,
      StateBranch.commit wSb = some sb'
      ∧ sb'.txHashesInProcess = wSb.txHashesInProcess ++ [hashSha3 []]
      ∧ mapGet sb'.state.blocks wSb.blockInProcess.header.height = some blk
      ∧ blk.header.txMerkle.rootHash.length = 32
      ∧ blk.header.txMerkle.rootHash ≠ [] :=
  C8_merkle_nonempty wSb

/-- Witness for C10 at concrete inputs: the S4 state and the one-block
    ledger state. -/
theorem C10_pending_errors_witness :
    block_number_to_height_evm (some BlockNumber.Pending) s4State = 0
    ∧ block_number_to_height_ledger (some BlockNumber.Pending) c2State = 0
    ∧ rollback_to_height_evm 0 s4State "balance" = .error "block height cannot be 0"
    ∧ exceptIsError (EthApiImpl.balance s4State 1 (some BlockNumber.Pending)) = true
    ∧ exceptIsError (EthApiImpl.storage_at s4State 1 0 (some BlockNumber.Pending)) = true
    ∧ exceptIsError (EthApiImpl.code_at s4State 1 (some BlockNumber.Pending)) = true
    ∧ exceptIsError (EthApiImpl.transaction_count c2State 1 (some BlockNumber.Pending))
        = true
    ∧ exceptIsError
        (EthApiImpl.block_transaction_count_by_number c2State BlockNumber.Pending) = true
    ∧ exceptIsError
        (EthApiImpl.transaction_by_block_number_and_index c2State BlockNumber.Pending 0)
        = true :=
  C10_pending_errors s4State c2State 1 0 0

end OVR
